import Mathlib

/-!
Shallow embedding of `src/opt/ansible/log-analyzer.py` (class
`AnsibleLogAnalyzer` and its `main` driver) together with proofs of the
spec's claims about it.

Modelling conventions:
* JSON values are `JsonValue`; numbers are integers (floating-point
  literals are outside the scope of this embedding, no claim concerns
  them).
* Python runtime errors (`TypeError`, `KeyError`, `AttributeError`)
  raised while processing an entry are represented by `PyErr`; the
  analyzer catches them in `parse_log`'s outer `except Exception`.
* Mutable state (`self.stats`) becomes explicit state passing: each step
  returns the updated `Stats` together with `Option PyErr`, so that a
  partially mutated state at the point an exception is raised is
  represented faithfully.
-/

namespace LogAnalyzer

/-- JSON values as produced by `json.loads`. -/
inductive JsonValue where
  | null : JsonValue
  | bool (b : Bool) : JsonValue
  | num (n : Int) : JsonValue
  | str (s : String) : JsonValue
  | arr (items : List JsonValue) : JsonValue
  | obj (fields : List (String × JsonValue)) : JsonValue

/-- Python `==` as exercised by the analyzer: it only ever compares a
string against an arbitrary value (`entry.get('event') == 'runner_on_ok'`,
list membership of a string key) or two hashable scalars against each
other (set membership in `hosts`; arrays and objects are unhashable and
never enter the set).  Python's cross-type `bool == int` equality is
honoured. -/
def pyEq : JsonValue → JsonValue → Bool
  | .null, .null => true
  | .bool a, .bool b => a == b
  | .bool a, .num n => n == (if a then 1 else 0)
  | .num n, .bool b => n == (if b then 1 else 0)
  | .num a, .num b => a == b
  | .str a, .str b => a == b
  | _, _ => false

/-- Lookup in a decoded JSON object.  `json.loads` builds the dict by
assigning keys in order, so with duplicate keys the last occurrence
wins. -/
def objLookup (key : String) : List (String × JsonValue) → Option JsonValue
  | [] => none
  | kv :: rest =>
    match objLookup key rest with
    | some w => some w
    | none => if kv.1 == key then some kv.2 else none

/-- Python `dict.get(key, dflt)`. -/
def objGetD (key : String) (dflt : JsonValue)
    (fields : List (String × JsonValue)) : JsonValue :=
  (objLookup key fields).getD dflt

/-- Python substring containment `needle in hay` for strings. -/
def strContains (needle : List Char) : List Char → Bool
  | [] => needle.isEmpty
  | c :: rest => needle.isPrefixOf (c :: rest) || strContains needle rest

/-- Python exceptions that `_process_entry` can raise; they propagate to
the `except Exception` handler in `parse_log`. -/
inductive PyErr where
  | typeError
  | keyError
  | attributeError

/-- Python `key in x`.  `none` models the `TypeError` raised when the
right operand is not a container (`None`, a bool, a number). -/
def pyIn (key : String) : JsonValue → Option Bool
  | .obj fields => some (fields.any (fun kv => kv.1 == key))
  | .str s => some (strContains key.data s.data)
  | .arr items => some (items.any (fun x => pyEq (.str key) x))
  | _ => none

/-- Python subscript `x[key]` with a string key: dict lookup (`KeyError`
when absent), `TypeError` on every other value (including strings and
lists, which require integer indices). -/
def pyGetItem (key : String) : JsonValue → Except PyErr JsonValue
  | .obj fields =>
    match objLookup key fields with
    | some v => .ok v
    | none => .error .keyError
  | _ => .error .typeError

/-- Python truthiness of a decoded JSON value. -/
def pyTruthy : JsonValue → Bool
  | .null => false
  | .bool b => b
  | .num n => !(n == 0)
  | .str s => !(s == "")
  | .arr items => !items.isEmpty
  | .obj fields => !fields.isEmpty

/-- One element of `stats['failed_details']`. -/
structure FailedDetail where
  task : JsonValue
  host : JsonValue
  error : JsonValue

/-- The `self.stats` dictionary of `AnsibleLogAnalyzer.__init__`.
`hosts` is a Python set, modelled as a duplicate-free list (first
insertion kept, membership up to `pyEq`); `execution_time` is
initialised to 0 and never written again by the program. -/
structure Stats where
  total_tasks : Nat
  changed_tasks : Nat
  failed_tasks : Nat
  skipped_tasks : Nat
  ok_tasks : Nat
  execution_time : Nat
  hosts : List JsonValue
  failed_details : List FailedDetail

/-- The freshly initialised stats from `__init__`. -/
def initStats : Stats :=
  { total_tasks := 0, changed_tasks := 0, failed_tasks := 0
    skipped_tasks := 0, ok_tasks := 0, execution_time := 0
    hosts := [], failed_details := [] }

/-- Insertion into the `hosts` set: a no-op when an equal element is
already present. -/
def pyInsert (xs : List JsonValue) (v : JsonValue) : List JsonValue :=
  if xs.any (fun h => pyEq h v) then xs else xs ++ [v]

/-- Python `set.add`: arrays and objects are unhashable and raise
`TypeError`. -/
def setAdd (v : JsonValue) (xs : List JsonValue) : Option (List JsonValue) :=
  match v with
  | .arr _ => none
  | .obj _ => none
  | _ => some (pyInsert xs v)

/-- The host-tracking block of `_process_entry`:
`if 'remote_addr' in event_data: self.stats['hosts'].add(event_data['remote_addr'])`. -/
def hostsStep (event_data : JsonValue) (s : Stats) : Stats × Option PyErr :=
  match pyIn "remote_addr" event_data with
  | none => (s, some .typeError)
  | some false => (s, none)
  | some true =>
    match pyGetItem "remote_addr" event_data with
    | .error e => (s, some e)
    | .ok addr =>
      match setAdd addr s.hosts with
      | none => (s, some .typeError)
      | some hs => ({ s with hosts := hs }, none)

/-- The event-dispatch block of `_process_entry`
(`if entry.get('event') == 'runner_on_ok': ... elif ... elif ...`).
`entry.get` requires `entry` to be a dict (`AttributeError` otherwise);
by the time dispatch is reached `entry` always is one.  In the
`runner_on_ok` and `runner_on_failed` branches the counters are
incremented before `event_data.get` is evaluated, so a non-dict
`event_data` raises `AttributeError` with the counters already bumped,
exactly as in the Python source. -/
def dispatchStep (entry event_data : JsonValue) (s : Stats) :
    Stats × Option PyErr :=
  match entry with
  | .obj fields =>
    let ev := objGetD "event" .null fields
    if pyEq ev (.str "runner_on_ok") then
      let s1 := { s with total_tasks := s.total_tasks + 1
                         ok_tasks := s.ok_tasks + 1 }
      match event_data with
      | .obj eds =>
        if pyTruthy (objGetD "changed" (.bool false) eds) then
          ({ s1 with changed_tasks := s1.changed_tasks + 1 }, none)
        else (s1, none)
      | _ => (s1, some .attributeError)
    else if pyEq ev (.str "runner_on_failed") then
      let s1 := { s with total_tasks := s.total_tasks + 1
                         failed_tasks := s.failed_tasks + 1 }
      match event_data with
      | .obj eds =>
        ({ s1 with failed_details := s1.failed_details ++
            [{ task := objGetD "task" (.str "Unknown") eds
               host := objGetD "remote_addr" (.str "Unknown") eds
               error := objGetD "msg" (.str "No error message") eds }] },
         none)
      | _ => (s1, some .attributeError)
    else if pyEq ev (.str "runner_on_skipped") then
      ({ s with skipped_tasks := s.skipped_tasks + 1 }, none)
    else (s, none)
  | _ => (s, some .attributeError)

/-- `AnsibleLogAnalyzer._process_entry`.  Mirrors the source line by
line: the `'event_data' not in entry` guard, the `entry['event_data']`
subscript, the host-tracking block, then the event dispatch. -/
def processEntry (entry : JsonValue) (s : Stats) : Stats × Option PyErr :=
  match pyIn "event_data" entry with
  | none => (s, some .typeError)
  | some false => (s, none)
  | some true =>
    match pyGetItem "event_data" entry with
    | .error e => (s, some e)
    | .ok event_data =>
      match hostsStep event_data s with
      | (s1, some e) => (s1, some e)
      | (s1, none) => dispatchStep entry event_data s1

/-- Feeding a sequence of decoded records to `_process_entry`; the first
raised exception aborts the loop (it propagates out of the inner `try`,
which only catches `json.JSONDecodeError`). -/
def runEntries : List JsonValue → Stats → Stats × Option PyErr
  | [], s => (s, none)
  | v :: vs, s =>
    match processEntry v s with
    | (s1, none) => runEntries vs s1
    | (s1, some e) => (s1, some e)

/-! ### The JSON line decoder

`parse_log` runs `json.loads(line.strip())` on each line.  `str.strip()`
removes leading and trailing whitespace; `json.loads` skips the JSON
whitespace characters space, tab, newline and carriage return between
tokens and rejects any other leading or trailing content. -/

/-- The ASCII characters removed by Python `str.strip()`: the six
`str.isspace()` controls plus the file/group/record/unit separators
`\x1c`–`\x1f` (Unicode whitespace beyond ASCII is not modelled). -/
def isPySpace (c : Char) : Bool :=
  c == ' ' || c == '\t' || c == '\n' || c == '\r' ||
    c == '\x0b' || c == '\x0c' ||
    c == '\x1c' || c == '\x1d' || c == '\x1e' || c == '\x1f'

/-- Python `str.strip()` on a line. -/
def pyStrip (cs : List Char) : List Char :=
  ((cs.dropWhile isPySpace).reverse.dropWhile isPySpace).reverse

/-- JSON inter-token whitespace (`json.decoder.WHITESPACE`). -/
def isJsonWS (c : Char) : Bool :=
  c == ' ' || c == '\t' || c == '\n' || c == '\r'

def skipWS (cs : List Char) : List Char := cs.dropWhile isJsonWS

/-- The value of one hexadecimal digit of a `\uXXXX` escape, via the
code point: `0`–`9` are 48–57, `a`–`f` are 97–102, `A`–`F` are 65–70. -/
def hexDigit (c : Char) : Option Nat :=
  let n := c.toNat
  if 48 ≤ n && n ≤ 57 then some (n - 48)
  else if 97 ≤ n && n ≤ 102 then some (n - 87)
  else if 65 ≤ n && n ≤ 70 then some (n - 55)
  else none

/-- The code unit named by a four-digit hex escape. -/
def hexQuad (a b c d : Char) : Option Nat :=
  match hexDigit a, hexDigit b, hexDigit c, hexDigit d with
  | some x, some y, some z, some w => some (4096 * x + 256 * y + 16 * z + w)
  | _, _, _, _ => none

/-- Body of a JSON string literal (after the opening quote), strict mode:
unescaped control characters are rejected; recognised escapes are
`\" \\ \/ \b \f \n \r \t \uXXXX`.  Surrogate pairs are combined; lone
surrogates (which Python tolerates) are outside this embedding and
rejected. -/
def parseStringBody : List Char → List Char → Option (String × List Char)
  | '"' :: rest, acc => some (⟨acc.reverse⟩, rest)
  | '\\' :: 'u' :: h1 :: h2 :: h3 :: h4 :: rest, acc =>
    match hexQuad h1 h2 h3 h4 with
    | none => none
    | some code =>
      if 0xD800 ≤ code && code < 0xDC00 then
        match rest with
        | '\\' :: 'u' :: g1 :: g2 :: g3 :: g4 :: rest2 =>
          match hexQuad g1 g2 g3 g4 with
          | none => none
          | some low =>
            if 0xDC00 ≤ low && low < 0xE000 then
              let cp := 0x10000 + (code - 0xD800) * 0x400 + (low - 0xDC00)
              parseStringBody rest2 (Char.ofNat cp :: acc)
            else none
        | _ => none
      else if 0xDC00 ≤ code && code < 0xE000 then none
      else parseStringBody rest (Char.ofNat code :: acc)
  | '\\' :: e :: rest, acc =>
    match e with
    | '"' => parseStringBody rest ('"' :: acc)
    | '\\' => parseStringBody rest ('\\' :: acc)
    | '/' => parseStringBody rest ('/' :: acc)
    | 'b' => parseStringBody rest ('\x08' :: acc)
    | 'f' => parseStringBody rest ('\x0c' :: acc)
    | 'n' => parseStringBody rest ('\n' :: acc)
    | 'r' => parseStringBody rest ('\r' :: acc)
    | 't' => parseStringBody rest ('\t' :: acc)
    | _ => none
  | c :: rest, acc =>
    if c.toNat < 0x20 then none else parseStringBody rest (c :: acc)
  | [], _ => none

def isDigit (c : Char) : Bool := c.isDigit

def digitsToNat (ds : List Char) : Nat :=
  ds.foldl (fun acc d => 10 * acc + (d.toNat - 48)) 0

/-- A JSON number token.  Python's grammar is
`-?(0|[1-9][0-9]*)(\.[0-9]+)?([eE][+-]?[0-9]+)?`; a fraction or exponent
part produces a float, which is outside this embedding, so such tokens
are rejected here. -/
def parseNumToken (cs : List Char) : Option (JsonValue × List Char) :=
  let (neg, cs1) :=
    match cs with
    | '-' :: t => (true, t)
    | _ => (false, cs)
  let intPart : Option (Nat × List Char) :=
    match cs1 with
    | '0' :: rest => some (0, rest)
    | c :: rest =>
      if isDigit c && c != '0' then
        let (ds, rest2) := rest.span isDigit
        some (digitsToNat (c :: ds), rest2)
      else none
    | [] => none
  match intPart with
  | none => none
  | some (n, rest) =>
    match rest with
    | '.' :: _ => none
    | 'e' :: _ => none
    | 'E' :: _ => none
    | _ => some (.num (if neg then -(n : Int) else (n : Int)), rest)

mutual

/-- Recursive-descent JSON value parser; the input starts at a value's
first character (whitespace already skipped).  The fuel argument bounds
the recursion depth. -/
def parseValue : Nat → List Char → Option (JsonValue × List Char)
  | 0, _ => none
  | fuel + 1, cs =>
    match cs with
    | 'n' :: 'u' :: 'l' :: 'l' :: rest => some (.null, rest)
    | 't' :: 'r' :: 'u' :: 'e' :: rest => some (.bool true, rest)
    | 'f' :: 'a' :: 'l' :: 's' :: 'e' :: rest => some (.bool false, rest)
    | '"' :: rest =>
      match parseStringBody rest [] with
      | some (s, rest2) => some (.str s, rest2)
      | none => none
    | '{' :: rest =>
      match skipWS rest with
      | '}' :: rest2 => some (.obj [], rest2)
      | rest2 => parseMembers fuel rest2 []
    | '[' :: rest =>
      match skipWS rest with
      | ']' :: rest2 => some (.arr [], rest2)
      | rest2 => parseItems fuel rest2 []
    | _ => parseNumToken cs

/-- The members of a JSON object, positioned at the first character of a
key (whitespace skipped); `acc` holds the members read so far, in
reverse. -/
def parseMembers (fuel : Nat) (cs : List Char)
    (acc : List (String × JsonValue)) : Option (JsonValue × List Char) :=
  match fuel with
  | 0 => none
  | fuel + 1 =>
    match cs with
    | '"' :: rest =>
      match parseStringBody rest [] with
      | none => none
      | some (key, rest2) =>
        match skipWS rest2 with
        | ':' :: rest3 =>
          match parseValue fuel (skipWS rest3) with
          | none => none
          | some (v, rest4) =>
            match skipWS rest4 with
            | ',' :: rest5 => parseMembers fuel (skipWS rest5) ((key, v) :: acc)
            | '}' :: rest5 => some (.obj ((key, v) :: acc).reverse, rest5)
            | _ => none
        | _ => none
    | _ => none

/-- The items of a JSON array, positioned at the first character of an
item (whitespace skipped); `acc` holds the items read so far, in
reverse. -/
def parseItems (fuel : Nat) (cs : List Char)
    (acc : List JsonValue) : Option (JsonValue × List Char) :=
  match fuel with
  | 0 => none
  | fuel + 1 =>
    match parseValue fuel cs with
    | none => none
    | some (v, rest) =>
      match skipWS rest with
      | ',' :: rest2 => parseItems fuel (skipWS rest2) (v :: acc)
      | ']' :: rest2 => some (.arr (v :: acc).reverse, rest2)
      | _ => none

end

/-- `json.loads` on a whole string: skip leading whitespace, parse one
value, require only whitespace after it. -/
def jsonLoads (cs : List Char) : Option JsonValue :=
  match parseValue (2 * cs.length + 2) (skipWS cs) with
  | some (v, rest) => if (skipWS rest).isEmpty then some v else none
  | none => none

/-- Decoding one line of the log file: `json.loads(line.strip())`,
`none` when `json.JSONDecodeError` is raised. -/
def parseLine (line : List Char) : Option JsonValue :=
  jsonLoads (pyStrip line)

/-- The per-line loop of `parse_log`: undecodable lines are skipped by
the `except json.JSONDecodeError: continue` handler; any exception from
`_process_entry` aborts the loop and propagates. -/
def runLines : List (List Char) → Stats → Stats × Option PyErr
  | [], s => (s, none)
  | l :: ls, s =>
    match parseLine l with
    | none => runLines ls s
    | some v =>
      match processEntry v s with
      | (s1, none) => runLines ls s1
      | (s1, some e) => (s1, some e)

/-! ### File access, report and `main` -/

/-- The log file as `parse_log` sees it: absent, unreadable (`open` or
reading raises an `OSError` carrying a message), or a list of lines. -/
inductive FileInput where
  | missing
  | unreadable (emsg : String)
  | present (lines : List (List Char))

/-- Rendering of a `PyErr` inside `f"Error reading log file: {e}"` (the
exact Python message text is abbreviated to the exception kind). -/
def pyErrMsg : PyErr → String
  | .typeError => "TypeError"
  | .keyError => "KeyError"
  | .attributeError => "AttributeError"

/-- `AnsibleLogAnalyzer.parse_log`: returns the Python return value, the
stats after the loop, and the diagnostic lines printed. -/
def parse_log (path : String) (input : FileInput) :
    Bool × Stats × List String :=
  match input with
  | .missing =>
    (false, initStats, ["Error: Log file " ++ path ++ " not found"])
  | .unreadable emsg =>
    (false, initStats, ["Error reading log file: " ++ emsg])
  | .present lines =>
    match runLines lines initStats with
    | (s, none) => (true, s, [])
    | (s, some e) => (false, s, ["Error reading log file: " ++ pyErrMsg e])

mutual

/-- Python `repr` of a decoded JSON value, as used transitively by
`str` inside f-strings (quote escaping inside strings and duplicate-key
collapse in dicts are not modelled; no claim exercises them). -/
def pyRepr : JsonValue → String
  | .null => "None"
  | .bool true => "True"
  | .bool false => "False"
  | .num n => toString n
  | .str s => "'" ++ s ++ "'"
  | .arr items => "[" ++ pyReprItems items ++ "]"
  | .obj fields => "\x7b" ++ pyReprFields fields ++ "\x7d"

/-- Comma-separated `repr`s of list items. -/
def pyReprItems : List JsonValue → String
  | [] => ""
  | [x] => pyRepr x
  | x :: rest => pyRepr x ++ ", " ++ pyReprItems rest

/-- Comma-separated `repr`s of dict items. -/
def pyReprFields : List (String × JsonValue) → String
  | [] => ""
  | [kv] => "'" ++ kv.1 ++ "': " ++ pyRepr kv.2
  | kv :: rest => "'" ++ kv.1 ++ "': " ++ pyRepr kv.2 ++ ", " ++ pyReprFields rest

end

/-- Python `str` of a decoded JSON value, as interpolated by f-strings. -/
def pyStr : JsonValue → String
  | .str s => s
  | v => pyRepr v

/-- Round-half-to-even of `p / q` (`q` positive) to an integer: the tie
rule of both IEEE-754 round-to-nearest and Python float formatting. -/
def rhe (p q : Nat) : Nat :=
  let k := p / q
  let r := p % q
  if 2 * r < q then k
  else if q < 2 * r then k + 1
  else if k % 2 = 0 then k else k + 1

/-- Whether `n / d ≥ 2^k` (`n`, `d` positive), by cross-multiplying. -/
def ratGE (n d : Nat) (k : Int) : Bool :=
  if 0 ≤ k then d * 2 ^ k.toNat ≤ n else d ≤ n * 2 ^ (-k).toNat

/-- The binade of `n / d` (`n`, `d` positive): the `k` with
`2^k ≤ n / d < 2^(k+1)`; the floor logarithms of `n` and `d` leave only
two candidates. -/
def ratILog2 (n d : Nat) : Int :=
  let k0 : Int := (Nat.log2 n : Int) - (Nat.log2 d : Int)
  if ratGE n d k0 then k0 else k0 - 1

/-- Round-half-to-even of `n / d` at the grid of multiples of `2^g`. -/
def ratRound (n d : Nat) (g : Int) : Nat :=
  if 0 ≤ g then rhe n (d * 2 ^ g.toNat) else rhe (n * 2 ^ (-g).toNat) d

/-- Python's int/int true division `n / d` as the IEEE-754 binary64
value it is correctly rounded to, as a pair `(mantissa, exponent)`
denoting `mantissa * 2^exponent`: round-to-nearest with ties to even,
with gradual underflow at the `2^-1074` grid.  Overflow cannot occur at
the analyzer's ratios (`ok_tasks ≤ total_tasks`, so the quotient is at
most 1). -/
def divB64 (n d : Nat) : Nat × Int :=
  if n = 0 then (0, 0)
  else
    let g := max (ratILog2 n d - 52) (-1074)
    let m := ratRound n d g
    if m = 2 ^ 53 then (2 ^ 52, g + 1) else (m, g)

/-- Rounding an exact integer multiple of a grid, `M * 2^e`, back to
binary64 (used after multiplying a mantissa by 100); exact values small
enough to be representable are kept unchanged. -/
def normB64 (M : Nat) (e : Int) : Nat × Int :=
  if M = 0 then (0, 0)
  else
    let g := max ((Nat.log2 M : Int) + e - 52) (-1074)
    if g ≤ e then (M, e)
    else
      let m := rhe M (2 ^ (g - e).toNat)
      if m = 2 ^ 53 then (2 ^ 52, g + 1) else (m, g)

/-- Multiplication of a binary64 value by the exactly representable
float `100.0`, correctly rounded — the source's `* 100`. -/
def mulB64Hundred (me : Nat × Int) : Nat × Int :=
  normB64 (me.1 * 100) me.2

/-- Python `format(x, '.1f')` for a nonnegative binary64 `x`: the exact
binary value is rounded to tenths with ties to even (CPython's dtoa
conversion is correctly rounded) and printed with one digit after the
point. -/
def fmt1f (me : Nat × Int) : String :=
  let t :=
    if 0 ≤ me.2 then me.1 * 10 * 2 ^ me.2.toNat
    else rhe (me.1 * 10) (2 ^ (-me.2).toNat)
  toString (t / 10) ++ "." ++ toString (t % 10)

/-- The success-rate figure: `(ok / total) * 100` evaluated in IEEE-754
binary64 arithmetic exactly as Python does, rendered with `:.1f`.
Exact for every state with `ok ≤ total` — an invariant of all reachable
states — whereas at unreachable ratios of `2^1024` and beyond Python's
int division would raise `OverflowError` instead. -/
def formatRate (ok total : Nat) : String :=
  fmt1f (mulB64Hundred (divB64 ok total))

/-- The lines of `FAILED TASKS DETAILS` printed per failure. -/
def failureLines : List FailedDetail → List String
  | [] => []
  | f :: rest =>
    ["Task: " ++ pyStr f.task, "Host: " ++ pyStr f.host,
     "Error: " ++ pyStr f.error, ""] ++ failureLines rest

/-- Everything `generate_report` prints before the success-rate line:
header, execution statistics, and the failed-tasks block when
`failed_tasks > 0`. -/
def reportBase (path now : String) (st : Stats) : List String :=
  ["ANSIBLE EXECUTION REPORT",
   String.mk (List.replicate 50 '='),
   "Timestamp: " ++ now,
   "Log file: " ++ path,
   "",
   "EXECUTION STATISTICS:",
   String.mk (List.replicate 30 '-'),
   "Total tasks: " ++ toString st.total_tasks,
   "Successful tasks: " ++ toString st.ok_tasks,
   "Changed tasks: " ++ toString st.changed_tasks,
   "Failed tasks: " ++ toString st.failed_tasks,
   "Skipped tasks: " ++ toString st.skipped_tasks,
   "Managed hosts: " ++ toString st.hosts.length,
   ""] ++
  (if st.failed_tasks > 0 then
    ["FAILED TASKS DETAILS:", String.mk (List.replicate 30 '-')] ++
      failureLines st.failed_details
   else [])

/-- `AnsibleLogAnalyzer.generate_report`: the printed lines (the
timestamp `datetime.now()` is passed in as `now`) and the returned
success signal `self.stats['failed_tasks'] == 0`. -/
def generate_report (path now : String) (st : Stats) : List String × Bool :=
  (reportBase path now st ++
     (if st.total_tasks > 0 then
       ["Success rate: " ++ formatRate st.ok_tasks st.total_tasks ++ "%"]
      else []),
   st.failed_tasks == 0)

/-- The observable outcome of one program run. -/
structure ProgResult where
  exitCode : Nat
  output : List String

/-- The argv handling of `main`: `sys.argv[1]` when given, otherwise the
fixed default path. -/
def chooseLogFile : List String → String
  | _ :: f :: _ => f
  | _ => "/var/log/ansible/ansible.log"

/-- The `main` function: parse, then either report and exit by the
success signal, or exit 1. -/
def mainRun (argv : List String) (input : FileInput) (now : String) :
    ProgResult :=
  let path := chooseLogFile argv
  match parse_log path input with
  | (true, st, out) =>
    let (rep, success) := generate_report path now st
    { exitCode := if success then 0 else 1, output := out ++ rep }
  | (false, _, out) => { exitCode := 1, output := out }

/-! ### Classification of records, for stating the claims -/

/-- Whether a record passes the `'event_data' not in entry` guard: it is
a JSON object with an `event_data` member. -/
def hasEventData : JsonValue → Bool
  | .obj fields => fields.any (fun kv => kv.1 == "event_data")
  | _ => false

/-- The string that `entry.get('event')` compares against the event
names, when the record is an object and the value is a string. -/
def eventName : JsonValue → Option String
  | .obj fields =>
    match objGetD "event" .null fields with
    | .str s => some s
    | _ => none
  | _ => none

/-- A record counted by the `runner_on_ok` branch: it carries
`event_data` and its `event` is `runner_on_ok`. -/
def countsOk (v : JsonValue) : Bool :=
  hasEventData v && (eventName v == some "runner_on_ok")

/-- A record counted by the `runner_on_failed` branch. -/
def countsFailed (v : JsonValue) : Bool :=
  hasEventData v && (eventName v == some "runner_on_failed")

/-- A record counted by the `runner_on_skipped` branch. -/
def countsSkipped (v : JsonValue) : Bool :=
  hasEventData v && (eventName v == some "runner_on_skipped")

/-- The `event_data.get('changed', False)` value of an ok record (with
`false` as a placeholder for records where the branch would raise). -/
def changedOf : JsonValue → JsonValue
  | .obj fields =>
    match objLookup "event_data" fields with
    | some (.obj eds) => objGetD "changed" (.bool false) eds
    | _ => .bool false
  | _ => .bool false

/-- A record that increments `changed_tasks`: a counted ok record whose
`event_data.changed` is truthy. -/
def countsChanged (v : JsonValue) : Bool :=
  countsOk v && pyTruthy (changedOf v)

/-- The failure entry a `runner_on_failed` record appends, with the
source's defaults for missing sub-fields. -/
def failDetailOf : JsonValue → FailedDetail
  | .obj fields =>
    match objLookup "event_data" fields with
    | some (.obj eds) =>
      { task := objGetD "task" (.str "Unknown") eds
        host := objGetD "remote_addr" (.str "Unknown") eds
        error := objGetD "msg" (.str "No error message") eds }
    | _ => { task := .null, host := .null, error := .null }
  | _ => { task := .null, host := .null, error := .null }

/-- The `remote_addr` inside a value bound to `event_data`, when that
value is an object. -/
def remoteAddrIn : JsonValue → Option JsonValue
  | .obj eds => objLookup "remote_addr" eds
  | _ => none

/-- The `remote_addr` a record contributes to the `hosts` set: present
exactly when the record is an object whose `event_data` is an object
with a `remote_addr` member. -/
def remoteAddrOf : JsonValue → Option JsonValue
  | .obj fields =>
    match objLookup "event_data" fields with
    | some ed => remoteAddrIn ed
    | none => none
  | _ => none

/-- First-occurrence deduplication under Python equality: the contents
of a Python set built by inserting the list's elements in order. -/
def pyDedup (xs : List JsonValue) : List JsonValue :=
  xs.foldl pyInsert []

/-- The records an input's lines decode to, in order (the values fed to
`_process_entry`). -/
def decodedValues (lines : List (List Char)) : List JsonValue :=
  lines.filterMap parseLine

/-- The number of counted ok records in a sequence. -/
def countOk (vs : List JsonValue) : Nat := (vs.filter countsOk).length

/-- The number of counted failed records in a sequence. -/
def countFailed (vs : List JsonValue) : Nat := (vs.filter countsFailed).length

/-- A record that `_process_entry` is guaranteed to process without
raising: a JSON object whose `event_data` member, when present, is
itself an object whose `remote_addr` value, when present, is hashable
(not an array or object). -/
def goodEntry : JsonValue → Bool
  | .obj fields =>
    match objLookup "event_data" fields with
    | none => true
    | some (.obj eds) =>
      match objLookup "remote_addr" eds with
      | some (.arr _) => false
      | some (.obj _) => false
      | _ => true
    | some _ => false
  | _ => false

/-- Whether the record's `event` value equals the given event name
(the comparison `entry.get('event') == t` of the source). -/
def evIs (fields : List (String × JsonValue)) (t : String) : Bool :=
  pyEq (objGetD "event" .null fields) (.str t)

/-- The `event_data.get('changed', False)` value, at the point where
`event_data` is already in hand. -/
def edChanged : JsonValue → JsonValue
  | .obj eds => objGetD "changed" (.bool false) eds
  | _ => .bool false

/-- The failure entry built from an `event_data` value in hand. -/
def edDetail : JsonValue → FailedDetail
  | .obj eds =>
    { task := objGetD "task" (.str "Unknown") eds
      host := objGetD "remote_addr" (.str "Unknown") eds
      error := objGetD "msg" (.str "No error message") eds }
  | _ => { task := .null, host := .null, error := .null }

/-! ## Helper lemmas -/

theorem objLookup_isSome_any (key : String) (fs : List (String × JsonValue)) :
    (objLookup key fs).isSome = fs.any (fun kv => kv.1 == key) := by
  induction fs with
  | nil => rfl
  | cons kv rest ih =>
    simp only [objLookup, List.any_cons]
    cases h : objLookup key rest with
    | some w =>
      have hr : rest.any (fun kv => kv.1 == key) = true := by
        rw [← ih, h]; rfl
      simp [hr]
    | none =>
      have hr : rest.any (fun kv => kv.1 == key) = false := by
        rw [← ih, h]; rfl
      cases hk : (kv.1 == key) <;> simp [hk, hr]

theorem pyEq_str_iff (w : JsonValue) (t : String) :
    pyEq w (.str t) = true ↔ w = .str t := by
  cases w <;> simp [pyEq]

theorem hostsStep_counters (ed : JsonValue) (s : Stats) :
    ((hostsStep ed s).1).total_tasks = s.total_tasks ∧
    ((hostsStep ed s).1).ok_tasks = s.ok_tasks ∧
    ((hostsStep ed s).1).failed_tasks = s.failed_tasks ∧
    ((hostsStep ed s).1).changed_tasks = s.changed_tasks ∧
    ((hostsStep ed s).1).skipped_tasks = s.skipped_tasks ∧
    ((hostsStep ed s).1).failed_details = s.failed_details := by
  unfold hostsStep
  repeat' split
  all_goals exact ⟨rfl, rfl, rfl, rfl, rfl, rfl⟩

theorem dispatchStep_hosts (e ed : JsonValue) (s : Stats) :
    ((dispatchStep e ed s).1).hosts = s.hosts := by
  unfold dispatchStep
  dsimp only
  repeat' split
  all_goals rfl

theorem dispatchStep_none (fields : List (String × JsonValue))
    (ed : JsonValue) (s : Stats)
    (h : (dispatchStep (.obj fields) ed s).2 = none) :
    ((dispatchStep (.obj fields) ed s).1).total_tasks =
      s.total_tasks + (if evIs fields "runner_on_ok" then 1 else 0) +
        (if evIs fields "runner_on_failed" then 1 else 0) ∧
    ((dispatchStep (.obj fields) ed s).1).ok_tasks =
      s.ok_tasks + (if evIs fields "runner_on_ok" then 1 else 0) ∧
    ((dispatchStep (.obj fields) ed s).1).failed_tasks =
      s.failed_tasks + (if evIs fields "runner_on_failed" then 1 else 0) ∧
    ((dispatchStep (.obj fields) ed s).1).skipped_tasks =
      s.skipped_tasks + (if evIs fields "runner_on_skipped" then 1 else 0) ∧
    ((dispatchStep (.obj fields) ed s).1).changed_tasks =
      s.changed_tasks +
        (if evIs fields "runner_on_ok" && pyTruthy (edChanged ed) then 1
         else 0) ∧
    ((dispatchStep (.obj fields) ed s).1).failed_details =
      s.failed_details ++
        (if evIs fields "runner_on_failed" then [edDetail ed] else []) := by
  unfold dispatchStep at h ⊢
  dsimp only at h ⊢
  by_cases hok : pyEq (objGetD "event" .null fields) (.str "runner_on_ok") = true
  · have hev : objGetD "event" .null fields = .str "runner_on_ok" :=
      (pyEq_str_iff _ _).mp hok
    simp only [hok, if_true] at h ⊢
    have h1 : evIs fields "runner_on_ok" = true := hok
    have h2 : evIs fields "runner_on_failed" = false := by
      simp [evIs, hev, pyEq]
    have h3 : evIs fields "runner_on_skipped" = false := by
      simp [evIs, hev, pyEq]
    cases ed with
    | obj eds =>
      by_cases hch : pyTruthy (objGetD "changed" (.bool false) eds) = true <;>
        simp [hch, h1, h2, h3, edChanged]
    | null => simp at h
    | bool b => simp at h
    | num n => simp at h
    | str t => simp at h
    | arr xs => simp at h
  · by_cases hfail :
        pyEq (objGetD "event" .null fields) (.str "runner_on_failed") = true
    · have hev : objGetD "event" .null fields = .str "runner_on_failed" :=
        (pyEq_str_iff _ _).mp hfail
      simp only [hok, hfail, if_true, if_false] at h ⊢
      have h1 : evIs fields "runner_on_ok" = false := by
        simp [evIs, hev, pyEq]
      have h2 : evIs fields "runner_on_failed" = true := hfail
      have h3 : evIs fields "runner_on_skipped" = false := by
        simp [evIs, hev, pyEq]
      cases ed with
      | obj eds => simp [h1, h2, h3, edDetail]
      | null => simp at h
      | bool b => simp at h
      | num n => simp at h
      | str t => simp at h
      | arr xs => simp at h
    · have h1 : evIs fields "runner_on_ok" = false := by
        simpa [evIs] using hok
      have h2 : evIs fields "runner_on_failed" = false := by
        simpa [evIs] using hfail
      by_cases hskip :
          pyEq (objGetD "event" .null fields) (.str "runner_on_skipped") = true
      · have h3 : evIs fields "runner_on_skipped" = true := hskip
        simp [hok, hfail, hskip, h1, h2, h3]
      · have h3 : evIs fields "runner_on_skipped" = false := by
          simpa [evIs] using hskip
        simp [hok, hfail, hskip, h1, h2, h3]

theorem evIs_eq (fields : List (String × JsonValue)) (t : String) :
    (eventName (.obj fields) == some t) = evIs fields t := by
  unfold eventName evIs
  cases hw : objGetD "event" .null fields <;> simp [pyEq, hw]

theorem changedOf_eq (fields : List (String × JsonValue)) (ed : JsonValue)
    (hl : objLookup "event_data" fields = some ed) :
    changedOf (.obj fields) = edChanged ed := by
  cases ed <;> simp [changedOf, hl, edChanged]

theorem failDetailOf_eq (fields : List (String × JsonValue)) (ed : JsonValue)
    (hl : objLookup "event_data" fields = some ed) :
    failDetailOf (.obj fields) = edDetail ed := by
  cases ed <;> simp [failDetailOf, hl, edDetail]

theorem hostsStep_none (ed : JsonValue) (s : Stats)
    (h : (hostsStep ed s).2 = none) :
    ((hostsStep ed s).1).hosts =
      (match remoteAddrIn ed with
       | some a => pyInsert s.hosts a
       | none => s.hosts) := by
  cases ed with
  | null => simp [hostsStep, pyIn] at h
  | bool b => simp [hostsStep, pyIn] at h
  | num n => simp [hostsStep, pyIn] at h
  | str t =>
    by_cases hc : strContains ("remote_addr".data) t.data = true
    · simp [hostsStep, pyIn, pyGetItem, hc] at h
    · rw [Bool.not_eq_true] at hc
      simp [hostsStep, pyIn, hc, remoteAddrIn]
  | arr xs =>
    by_cases hc : xs.any (fun x => pyEq (.str "remote_addr") x) = true
    · simp [hostsStep, pyIn, pyGetItem, hc] at h
    · rw [Bool.not_eq_true] at hc
      simp [hostsStep, pyIn, hc, remoteAddrIn]
  | obj eds =>
    by_cases hany : eds.any (fun kv => kv.1 == "remote_addr") = true
    · have hs : (objLookup "remote_addr" eds).isSome = true := by
        rw [objLookup_isSome_any]; exact hany
      obtain ⟨a, hl⟩ := Option.isSome_iff_exists.mp hs
      cases a with
      | arr ys => simp [hostsStep, pyIn, pyGetItem, hany, hl, setAdd] at h
      | obj fs => simp [hostsStep, pyIn, pyGetItem, hany, hl, setAdd] at h
      | null =>
        simp [hostsStep, pyIn, pyGetItem, hany, hl, setAdd, remoteAddrIn]
      | bool b =>
        simp [hostsStep, pyIn, pyGetItem, hany, hl, setAdd, remoteAddrIn]
      | num n =>
        simp [hostsStep, pyIn, pyGetItem, hany, hl, setAdd, remoteAddrIn]
      | str u =>
        simp [hostsStep, pyIn, pyGetItem, hany, hl, setAdd, remoteAddrIn]
    · rw [Bool.not_eq_true] at hany
      have hl : objLookup "remote_addr" eds = none := by
        have hs := objLookup_isSome_any "remote_addr" eds
        rw [hany] at hs
        exact Option.not_isSome_iff_eq_none.mp (by simp [hs])
      simp [hostsStep, pyIn, hany, remoteAddrIn, hl]

theorem processEntry_none (v : JsonValue) (s : Stats)
    (h : (processEntry v s).2 = none) :
    ((processEntry v s).1).total_tasks =
      s.total_tasks + (if countsOk v then 1 else 0) +
        (if countsFailed v then 1 else 0) ∧
    ((processEntry v s).1).ok_tasks =
      s.ok_tasks + (if countsOk v then 1 else 0) ∧
    ((processEntry v s).1).failed_tasks =
      s.failed_tasks + (if countsFailed v then 1 else 0) ∧
    ((processEntry v s).1).skipped_tasks =
      s.skipped_tasks + (if countsSkipped v then 1 else 0) ∧
    ((processEntry v s).1).changed_tasks =
      s.changed_tasks + (if countsChanged v then 1 else 0) ∧
    ((processEntry v s).1).failed_details =
      s.failed_details ++ (if countsFailed v then [failDetailOf v] else []) ∧
    ((processEntry v s).1).hosts =
      (match remoteAddrOf v with
       | some a => pyInsert s.hosts a
       | none => s.hosts) := by
  cases v with
  | null => simp [processEntry, pyIn] at h
  | bool b => simp [processEntry, pyIn] at h
  | num n => simp [processEntry, pyIn] at h
  | str t =>
    by_cases hc : strContains ("event_data".data) t.data = true
    · simp [processEntry, pyIn, pyGetItem, hc] at h
    · rw [Bool.not_eq_true] at hc
      simp [processEntry, pyIn, hc, countsOk, countsFailed, countsSkipped,
        countsChanged, hasEventData, remoteAddrOf]
  | arr xs =>
    by_cases hc : xs.any (fun x => pyEq (.str "event_data") x) = true
    · simp [processEntry, pyIn, pyGetItem, hc] at h
    · rw [Bool.not_eq_true] at hc
      simp [processEntry, pyIn, hc, countsOk, countsFailed, countsSkipped,
        countsChanged, hasEventData, remoteAddrOf]
  | obj fields =>
    by_cases hany : fields.any (fun kv => kv.1 == "event_data") = true
    · have hs : (objLookup "event_data" fields).isSome = true := by
        rw [objLookup_isSome_any]; exact hany
      obtain ⟨ed, hl⟩ := Option.isSome_iff_exists.mp hs
      have hstep :
          processEntry (.obj fields) s =
            (match hostsStep ed s with
             | (s1, some e) => (s1, some e)
             | (s1, none) => dispatchStep (.obj fields) ed s1) := by
        simp [processEntry, pyIn, hany, pyGetItem, hl]
      cases hhs : (hostsStep ed s).2 with
      | some e =>
        rw [hstep] at h
        have : hostsStep ed s = ((hostsStep ed s).1, some e) := by
          rw [← hhs]
        rw [this] at h
        simp at h
      | none =>
        have hpair : hostsStep ed s = ((hostsStep ed s).1, none) := by
          rw [← hhs]
        rw [hstep, hpair] at h ⊢
        dsimp only at h ⊢
        obtain ⟨hc1, hc2, hc3, hc4, hc5, hc6⟩ := hostsStep_counters ed s
        obtain ⟨hd1, hd2, hd3, hd4, hd5, hd6⟩ :=
          dispatchStep_none fields ed ((hostsStep ed s).1) h
        have hco : countsOk (.obj fields) = evIs fields "runner_on_ok" := by
          simp only [countsOk, hasEventData, hany, evIs_eq, Bool.true_and]
        have hcf : countsFailed (.obj fields) =
            evIs fields "runner_on_failed" := by
          simp only [countsFailed, hasEventData, hany, evIs_eq, Bool.true_and]
        have hcs : countsSkipped (.obj fields) =
            evIs fields "runner_on_skipped" := by
          simp only [countsSkipped, hasEventData, hany, evIs_eq, Bool.true_and]
        have hcc : countsChanged (.obj fields) =
            (evIs fields "runner_on_ok" && pyTruthy (edChanged ed)) := by
          unfold countsChanged
          rw [hco, changedOf_eq fields ed hl]
        refine ⟨?_, ?_, ?_, ?_, ?_, ?_, ?_⟩
        · rw [hd1, hc1, hco, hcf]
        · rw [hd2, hc2, hco]
        · rw [hd3, hc3, hcf]
        · rw [hd4, hc5, hcs]
        · rw [hd5, hc4, hcc]
        · rw [hd6, hc6, hcf, failDetailOf_eq fields ed hl]
        · rw [dispatchStep_hosts, hostsStep_none ed s hhs]
          simp [remoteAddrOf, hl]
    · rw [Bool.not_eq_true] at hany
      have hl : objLookup "event_data" fields = none := by
        have hs := objLookup_isSome_any "event_data" fields
        rw [hany] at hs
        exact Option.not_isSome_iff_eq_none.mp (by simp [hs])
      simp [processEntry, pyIn, hany, countsOk, countsFailed, countsSkipped,
        countsChanged, hasEventData, remoteAddrOf, hl]

theorem dispatchStep_counters_inv (e ed : JsonValue) (s : Stats)
    (h1 : s.total_tasks = s.ok_tasks + s.failed_tasks)
    (h2 : s.changed_tasks ≤ s.ok_tasks)
    (h3 : s.ok_tasks ≤ s.total_tasks) :
    ((dispatchStep e ed s).1).total_tasks =
      ((dispatchStep e ed s).1).ok_tasks +
        ((dispatchStep e ed s).1).failed_tasks ∧
    ((dispatchStep e ed s).1).changed_tasks ≤
      ((dispatchStep e ed s).1).ok_tasks ∧
    ((dispatchStep e ed s).1).ok_tasks ≤
      ((dispatchStep e ed s).1).total_tasks := by
  unfold dispatchStep
  dsimp only
  repeat' split
  all_goals refine ⟨?_, ?_, ?_⟩
  all_goals simp
  all_goals omega

theorem processEntry_counters_inv (v : JsonValue) (s : Stats)
    (h1 : s.total_tasks = s.ok_tasks + s.failed_tasks)
    (h2 : s.changed_tasks ≤ s.ok_tasks)
    (h3 : s.ok_tasks ≤ s.total_tasks) :
    ((processEntry v s).1).total_tasks =
      ((processEntry v s).1).ok_tasks +
        ((processEntry v s).1).failed_tasks ∧
    ((processEntry v s).1).changed_tasks ≤
      ((processEntry v s).1).ok_tasks ∧
    ((processEntry v s).1).ok_tasks ≤
      ((processEntry v s).1).total_tasks := by
  unfold processEntry
  split
  · exact ⟨h1, h2, h3⟩
  · exact ⟨h1, h2, h3⟩
  · split
    · exact ⟨h1, h2, h3⟩
    · rename_i event_data _
      split
      · rename_i s1 e heq
        obtain ⟨hc1, hc2, hc3, hc4, hc5, hc6⟩ := hostsStep_counters event_data s
        rw [heq] at hc1 hc2 hc3 hc4 hc5
        dsimp only at hc1 hc2 hc3 hc4 hc5 ⊢
        omega
      · rename_i s1 heq
        obtain ⟨hc1, hc2, hc3, hc4, hc5, hc6⟩ := hostsStep_counters event_data s
        rw [heq] at hc1 hc2 hc3 hc4 hc5
        dsimp only at hc1 hc2 hc3 hc4 hc5
        exact dispatchStep_counters_inv _ _ s1 (by omega) (by omega) (by omega)

theorem runEntries_counters_inv (vs : List JsonValue) (s : Stats)
    (h1 : s.total_tasks = s.ok_tasks + s.failed_tasks)
    (h2 : s.changed_tasks ≤ s.ok_tasks)
    (h3 : s.ok_tasks ≤ s.total_tasks) :
    ((runEntries vs s).1).total_tasks =
      ((runEntries vs s).1).ok_tasks + ((runEntries vs s).1).failed_tasks ∧
    ((runEntries vs s).1).changed_tasks ≤ ((runEntries vs s).1).ok_tasks ∧
    ((runEntries vs s).1).ok_tasks ≤ ((runEntries vs s).1).total_tasks := by
  induction vs generalizing s with
  | nil => exact ⟨h1, h2, h3⟩
  | cons v vs ih =>
    simp only [runEntries]
    obtain ⟨g1, g2, g3⟩ := processEntry_counters_inv v s h1 h2 h3
    cases hpe : processEntry v s with
    | mk s1 e =>
      rw [hpe] at g1 g2 g3
      dsimp only at g1 g2 g3
      cases e with
      | none => exact ih s1 g1 g2 g3
      | some err => exact ⟨g1, g2, g3⟩

theorem dispatchStep_other_total (fields : List (String × JsonValue))
    (ed : JsonValue) (s : Stats)
    (hok : evIs fields "runner_on_ok" = false)
    (hf : evIs fields "runner_on_failed" = false) :
    ((dispatchStep (.obj fields) ed s).1).total_tasks = s.total_tasks := by
  simp only [evIs] at hok hf
  unfold dispatchStep
  dsimp only
  simp only [hok, hf]
  repeat' split
  all_goals simp_all

theorem dispatchStep_other_changed (fields : List (String × JsonValue))
    (ed : JsonValue) (s : Stats)
    (hok : evIs fields "runner_on_ok" = false) :
    ((dispatchStep (.obj fields) ed s).1).changed_tasks = s.changed_tasks := by
  simp only [evIs] at hok
  unfold dispatchStep
  dsimp only
  simp only [hok]
  repeat' split
  all_goals simp_all

theorem processEntry_total_unchanged (v : JsonValue) (s : Stats)
    (hok : countsOk v = false) (hf : countsFailed v = false) :
    ((processEntry v s).1).total_tasks = s.total_tasks := by
  cases v with
  | null => rfl
  | bool b => rfl
  | num n => rfl
  | str t => simp [processEntry, pyIn]; split <;> rfl
  | arr xs => simp [processEntry, pyIn]; split <;> rfl
  | obj fields =>
    by_cases hany : fields.any (fun kv => kv.1 == "event_data") = true
    · have hs : (objLookup "event_data" fields).isSome = true := by
        rw [objLookup_isSome_any]; exact hany
      obtain ⟨ed, hl⟩ := Option.isSome_iff_exists.mp hs
      have hco : countsOk (.obj fields) = evIs fields "runner_on_ok" := by
        simp only [countsOk, hasEventData, hany, evIs_eq, Bool.true_and]
      have hcf : countsFailed (.obj fields) =
          evIs fields "runner_on_failed" := by
        simp only [countsFailed, hasEventData, hany, evIs_eq, Bool.true_and]
      rw [hco] at hok
      rw [hcf] at hf
      have hstep :
          processEntry (.obj fields) s =
            (match hostsStep ed s with
             | (s1, some e) => (s1, some e)
             | (s1, none) => dispatchStep (.obj fields) ed s1) := by
        simp [processEntry, pyIn, hany, pyGetItem, hl]
      rw [hstep]
      obtain ⟨hc1, _, _, _, _, _⟩ := hostsStep_counters ed s
      cases hhs : hostsStep ed s with
      | mk s1 eo =>
        rw [hhs] at hc1
        dsimp only at hc1
        cases eo with
        | some e => exact hc1
        | none => rw [dispatchStep_other_total fields ed s1 hok hf]; exact hc1
    · rw [Bool.not_eq_true] at hany
      simp [processEntry, pyIn, hany]

theorem processEntry_changed_unchanged (v : JsonValue) (s : Stats)
    (hok : countsOk v = false) :
    ((processEntry v s).1).changed_tasks = s.changed_tasks := by
  cases v with
  | null => rfl
  | bool b => rfl
  | num n => rfl
  | str t => simp [processEntry, pyIn]; split <;> rfl
  | arr xs => simp [processEntry, pyIn]; split <;> rfl
  | obj fields =>
    by_cases hany : fields.any (fun kv => kv.1 == "event_data") = true
    · have hs : (objLookup "event_data" fields).isSome = true := by
        rw [objLookup_isSome_any]; exact hany
      obtain ⟨ed, hl⟩ := Option.isSome_iff_exists.mp hs
      have hco : countsOk (.obj fields) = evIs fields "runner_on_ok" := by
        simp only [countsOk, hasEventData, hany, evIs_eq, Bool.true_and]
      rw [hco] at hok
      have hstep :
          processEntry (.obj fields) s =
            (match hostsStep ed s with
             | (s1, some e) => (s1, some e)
             | (s1, none) => dispatchStep (.obj fields) ed s1) := by
        simp [processEntry, pyIn, hany, pyGetItem, hl]
      rw [hstep]
      obtain ⟨_, _, _, hc4, _, _⟩ := hostsStep_counters ed s
      cases hhs : hostsStep ed s with
      | mk s1 eo =>
        rw [hhs] at hc4
        dsimp only at hc4
        cases eo with
        | some e => exact hc4
        | none => rw [dispatchStep_other_changed fields ed s1 hok]; exact hc4
    · rw [Bool.not_eq_true] at hany
      simp [processEntry, pyIn, hany]

theorem countOk_cons (v : JsonValue) (vs : List JsonValue) :
    countOk (v :: vs) = (if countsOk v then 1 else 0) + countOk vs := by
  cases h : countsOk v <;>
    simp [countOk, List.filter_cons, h, Nat.add_comm]

theorem countFailed_cons (v : JsonValue) (vs : List JsonValue) :
    countFailed (v :: vs) = (if countsFailed v then 1 else 0) + countFailed vs := by
  cases h : countsFailed v <;>
    simp [countFailed, List.filter_cons, h, Nat.add_comm]

theorem runEntries_none (vs : List JsonValue) (s : Stats)
    (h : (runEntries vs s).2 = none) :
    ((runEntries vs s).1).total_tasks =
      s.total_tasks + countOk vs + countFailed vs ∧
    ((runEntries vs s).1).ok_tasks = s.ok_tasks + countOk vs ∧
    ((runEntries vs s).1).failed_tasks = s.failed_tasks + countFailed vs ∧
    ((runEntries vs s).1).failed_details =
      s.failed_details ++ (vs.filter countsFailed).map failDetailOf ∧
    ((runEntries vs s).1).hosts =
      (vs.filterMap remoteAddrOf).foldl pyInsert s.hosts := by
  induction vs generalizing s with
  | nil => simp [runEntries, countOk, countFailed]
  | cons v vs ih =>
    simp only [runEntries] at h ⊢
    cases hpe : processEntry v s with
    | mk s1 eo =>
      rw [hpe] at h
      cases eo with
      | some e => simp at h
      | none =>
        dsimp only at h ⊢
        have hnone : (processEntry v s).2 = none := by rw [hpe]
        obtain ⟨m1, m2, m3, _, _, m6, m7⟩ := processEntry_none v s hnone
        rw [hpe] at m1 m2 m3 m6 m7
        dsimp only at m1 m2 m3 m6 m7
        obtain ⟨i1, i2, i3, i4, i5⟩ := ih s1 h
        refine ⟨?_, ?_, ?_, ?_, ?_⟩
        · rw [i1, m1, countOk_cons, countFailed_cons]
          cases countsOk v <;> cases countsFailed v <;> simp <;> omega
        · rw [i2, m2, countOk_cons]
          cases countsOk v <;> simp <;> omega
        · rw [i3, m3, countFailed_cons]
          cases countsFailed v <;> simp <;> omega
        · rw [i4, m6, List.filter_cons]
          cases countsFailed v <;> simp
        · rw [i5, m7, List.filterMap_cons]
          cases hra : remoteAddrOf v <;> simp

theorem runLines_eq_runEntries (lines : List (List Char)) (s : Stats) :
    runLines lines s = runEntries (decodedValues lines) s := by
  induction lines generalizing s with
  | nil => rfl
  | cons l ls ih =>
    simp only [runLines, decodedValues, List.filterMap_cons]
    cases hp : parseLine l with
    | none => dsimp only; exact ih s
    | some v =>
      dsimp only
      simp only [runEntries]
      cases hpe : processEntry v s with
      | mk s1 eo =>
        cases eo with
        | none => dsimp only; exact ih s1
        | some e => rfl

theorem runLines_skip (l : List Char) (hl : parseLine l = none)
    (xs ys : List (List Char)) (s : Stats) :
    runLines (xs ++ l :: ys) s = runLines (xs ++ ys) s := by
  induction xs generalizing s with
  | nil => simp only [List.nil_append, runLines, hl]
  | cons x xs ih =>
    simp only [List.cons_append, runLines]
    cases hp : parseLine x with
    | none => dsimp only; exact ih s
    | some v =>
      dsimp only
      cases hpe : processEntry v s with
      | mk s1 eo =>
        cases eo with
        | none => dsimp only; exact ih s1
        | some e => rfl

theorem dropWhile_all_append (p : Char → Bool) (ws t : List Char)
    (h : ∀ c ∈ ws, p c = true) :
    (ws ++ t).dropWhile p = t.dropWhile p := by
  induction ws with
  | nil => rfl
  | cons c cs ih =>
    have hc : p c = true := h c (List.mem_cons_self c cs)
    simp only [List.cons_append, List.dropWhile, hc]
    exact ih (fun x hx => h x (List.mem_cons_of_mem c hx))

theorem dropWhile_all_eq_nil (p : Char → Bool) (ws : List Char)
    (h : ∀ c ∈ ws, p c = true) :
    ws.dropWhile p = [] := by
  induction ws with
  | nil => rfl
  | cons c cs ih =>
    have hc : p c = true := h c (List.mem_cons_self c cs)
    simp only [List.dropWhile, hc]
    exact ih (fun x hx => h x (List.mem_cons_of_mem c hx))

theorem pyStrip_all_space (ws : List Char)
    (h : ∀ c ∈ ws, isPySpace c = true) :
    pyStrip ws = [] := by
  unfold pyStrip
  rw [dropWhile_all_eq_nil _ _ h]
  rfl

theorem dropWhile_append_cases (p : Char → Bool) (s t : List Char) :
    (s ++ t).dropWhile p =
      (if s.dropWhile p = [] then t.dropWhile p
       else s.dropWhile p ++ t) := by
  induction s with
  | nil => simp
  | cons c cs ih =>
    cases hc : p c with
    | true =>
      simp only [List.cons_append, List.dropWhile, hc]
      exact ih
    | false => simp [List.dropWhile, hc]

theorem pyStrip_surround (ws1 ws2 s : List Char)
    (h1 : ∀ c ∈ ws1, isPySpace c = true)
    (h2 : ∀ c ∈ ws2, isPySpace c = true) :
    pyStrip (ws1 ++ s ++ ws2) = pyStrip s := by
  unfold pyStrip
  rw [List.append_assoc, dropWhile_all_append _ _ _ h1,
    dropWhile_append_cases]
  cases hs : s.dropWhile isPySpace with
  | nil =>
    rw [if_pos rfl, dropWhile_all_eq_nil _ _ h2]
  | cons c cs =>
    rw [if_neg (by simp)]
    rw [List.reverse_append, dropWhile_all_append _ _ _
      (fun x hx => h2 x (List.mem_reverse.mp hx))]

theorem counts_event_exclusive (v : JsonValue) (t u : String)
    (h : (hasEventData v && (eventName v == some t)) = true) (hne : t ≠ u) :
    (hasEventData v && (eventName v == some u)) = false := by
  have h' : hasEventData v = true ∧ (eventName v == some t) = true := by
    simpa using h
  have ht : eventName v = some t := eq_of_beq h'.2
  rw [ht]
  simp [hne]

theorem countsFailed_not_ok (v : JsonValue) (h : countsFailed v = true) :
    countsOk v = false :=
  counts_event_exclusive v "runner_on_failed" "runner_on_ok" h (by decide)

theorem countsSkipped_not_ok (v : JsonValue) (h : countsSkipped v = true) :
    countsOk v = false :=
  counts_event_exclusive v "runner_on_skipped" "runner_on_ok" h (by decide)

theorem countsSkipped_not_failed (v : JsonValue) (h : countsSkipped v = true) :
    countsFailed v = false :=
  counts_event_exclusive v "runner_on_skipped" "runner_on_failed" h (by decide)

theorem dispatchStep_obj_obj_none (fields eds : List (String × JsonValue))
    (s : Stats) :
    (dispatchStep (.obj fields) (.obj eds) s).2 = none := by
  unfold dispatchStep
  dsimp only
  repeat' split
  all_goals rfl

theorem hostsStep_good_none (eds : List (String × JsonValue)) (s : Stats)
    (hg : (match objLookup "remote_addr" eds with
           | some (.arr _) => false
           | some (.obj _) => false
           | _ => true) = true) :
    (hostsStep (.obj eds) s).2 = none := by
  by_cases hany : eds.any (fun kv => kv.1 == "remote_addr") = true
  · have hs : (objLookup "remote_addr" eds).isSome = true := by
      rw [objLookup_isSome_any]; exact hany
    obtain ⟨a, hl⟩ := Option.isSome_iff_exists.mp hs
    rw [hl] at hg
    cases a with
    | arr xs => simp at hg
    | obj fs => simp at hg
    | null => simp [hostsStep, pyIn, hany, pyGetItem, hl, setAdd]
    | bool b => simp [hostsStep, pyIn, hany, pyGetItem, hl, setAdd]
    | num n => simp [hostsStep, pyIn, hany, pyGetItem, hl, setAdd]
    | str u => simp [hostsStep, pyIn, hany, pyGetItem, hl, setAdd]
  · rw [Bool.not_eq_true] at hany
    simp [hostsStep, pyIn, hany]

theorem processEntry_good_none (v : JsonValue) (s : Stats)
    (hg : goodEntry v = true) : (processEntry v s).2 = none := by
  cases v with
  | null => simp [goodEntry] at hg
  | bool b => simp [goodEntry] at hg
  | num n => simp [goodEntry] at hg
  | str t => simp [goodEntry] at hg
  | arr xs => simp [goodEntry] at hg
  | obj fields =>
    cases hl : objLookup "event_data" fields with
    | none =>
      have hany : fields.any (fun kv => kv.1 == "event_data") = false := by
        have hs := objLookup_isSome_any "event_data" fields
        rw [hl] at hs
        simpa using hs.symm
      simp [processEntry, pyIn, hany]
    | some ed =>
      have hany : fields.any (fun kv => kv.1 == "event_data") = true := by
        have hs := objLookup_isSome_any "event_data" fields
        rw [hl] at hs
        simpa using hs.symm
      cases ed with
      | obj eds =>
        simp only [goodEntry, hl] at hg
        have hstep :
            processEntry (.obj fields) s =
              (match hostsStep (.obj eds) s with
               | (s1, some e) => (s1, some e)
               | (s1, none) => dispatchStep (.obj fields) (.obj eds) s1) := by
          simp [processEntry, pyIn, hany, pyGetItem, hl]
        rw [hstep]
        have hh := hostsStep_good_none eds s hg
        cases hhs : hostsStep (.obj eds) s with
        | mk s1 eo =>
          rw [hhs] at hh
          dsimp only at hh
          cases eo with
          | some e => exact absurd hh (by simp)
          | none => exact dispatchStep_obj_obj_none fields eds s1
      | null => simp [goodEntry, hl] at hg
      | bool b => simp [goodEntry, hl] at hg
      | num n => simp [goodEntry, hl] at hg
      | str u => simp [goodEntry, hl] at hg
      | arr xs => simp [goodEntry, hl] at hg

/-! ## The claims -/

/-- C1: Starting from the empty `AggregateState`, after every sequence of
records consumed by the aggregator `total_tasks = ok_tasks + failed_tasks`
holds; when the parse loop over a file's lines completes without an
exception, the final state has `total_tasks = N + M`, `ok_tasks = N` and
`failed_tasks = M`, where `N` and `M` count the decoded `runner_on_ok`
and `runner_on_failed` records carrying `event_data`; and a
`runner_on_skipped` record never changes `total_tasks`. -/
theorem C1_total_is_ok_plus_failed :
    (∀ vs : List JsonValue,
      ((runEntries vs initStats).1).total_tasks =
        ((runEntries vs initStats).1).ok_tasks +
          ((runEntries vs initStats).1).failed_tasks) ∧
    (∀ lines : List (List Char),
      (runLines lines initStats).2 = none →
      ((runLines lines initStats).1).total_tasks =
          countOk (decodedValues lines) + countFailed (decodedValues lines) ∧
      ((runLines lines initStats).1).ok_tasks =
          countOk (decodedValues lines) ∧
      ((runLines lines initStats).1).failed_tasks =
          countFailed (decodedValues lines)) ∧
    (∀ (v : JsonValue) (s : Stats), countsSkipped v = true →
      ((processEntry v s).1).total_tasks = s.total_tasks) := by
  refine ⟨?_, ?_, ?_⟩
  · intro vs
    exact (runEntries_counters_inv vs initStats rfl (Nat.le_refl 0)
      (Nat.le_refl 0)).1
  · intro lines h
    rw [runLines_eq_runEntries] at h ⊢
    obtain ⟨ht, ho, hf, _, _⟩ := runEntries_none (decodedValues lines)
      initStats h
    refine ⟨?_, ?_, ?_⟩
    · rw [ht]; simp [initStats]
    · rw [ho]; simp [initStats]
    · rw [hf]; simp [initStats]
  · intro v s hsk
    exact processEntry_total_unchanged v s (countsSkipped_not_ok v hsk)
      (countsSkipped_not_failed v hsk)

/-- Witness for C1 at the spec's concrete scenario (an ok record, a
failed record and a garbage line) and at a concrete skipped record. -/
theorem C1_total_is_ok_plus_failed_witness :
    ((runLines
        [("\x7b\"event\": \"runner_on_ok\", \"event_data\": \x7b\"remote_addr\": \"10.0.0.1\", \"changed\": true\x7d\x7d").data,
         ("\x7b\"event\": \"runner_on_failed\", \"event_data\": \x7b\"remote_addr\": \"10.0.0.2\", \"task\": \"install pkg\", \"msg\": \"timeout\"\x7d\x7d").data,
         ("not json").data] initStats).1).total_tasks =
      countOk (decodedValues
        [("\x7b\"event\": \"runner_on_ok\", \"event_data\": \x7b\"remote_addr\": \"10.0.0.1\", \"changed\": true\x7d\x7d").data,
         ("\x7b\"event\": \"runner_on_failed\", \"event_data\": \x7b\"remote_addr\": \"10.0.0.2\", \"task\": \"install pkg\", \"msg\": \"timeout\"\x7d\x7d").data,
         ("not json").data]) +
      countFailed (decodedValues
        [("\x7b\"event\": \"runner_on_ok\", \"event_data\": \x7b\"remote_addr\": \"10.0.0.1\", \"changed\": true\x7d\x7d").data,
         ("\x7b\"event\": \"runner_on_failed\", \"event_data\": \x7b\"remote_addr\": \"10.0.0.2\", \"task\": \"install pkg\", \"msg\": \"timeout\"\x7d\x7d").data,
         ("not json").data]) ∧
    ((processEntry (JsonValue.obj
        [("event", JsonValue.str "runner_on_skipped"),
         ("event_data", JsonValue.obj [])]) initStats).1).total_tasks =
      initStats.total_tasks :=
  ⟨(C1_total_is_ok_plus_failed.2.1 _ (by rfl)).1,
   C1_total_is_ok_plus_failed.2.2 _ initStats (by rfl)⟩

/-- C2: For every log file whose parse step completes, the success signal
returned by `generate_report` is true exactly when `failed_tasks = 0`
(also when `total_tasks = 0`, since the state is universally
quantified), the exit status is 0 exactly when the signal is true and 1
otherwise, and a missing or unreadable file exits with status 1. -/
theorem C2_success_signal_and_exit :
    (∀ (lines : List (List Char)) (argv : List String) (now : String),
      (runLines lines initStats).2 = none →
      ((generate_report (chooseLogFile argv) now
            ((runLines lines initStats).1)).2 = true ↔
          ((runLines lines initStats).1).failed_tasks = 0) ∧
      (mainRun argv (.present lines) now).exitCode =
        (if (generate_report (chooseLogFile argv) now
              ((runLines lines initStats).1)).2 then 0 else 1) ∧
      (mainRun argv (.present lines) now).exitCode =
        (if ((runLines lines initStats).1).failed_tasks = 0 then 0 else 1)) ∧
    (∀ (argv : List String) (emsg now : String),
      (mainRun argv .missing now).exitCode = 1 ∧
      (mainRun argv (.unreadable emsg) now).exitCode = 1) := by
  constructor
  · intro lines argv now h
    cases hr : runLines lines initStats with
    | mk st eo =>
      rw [hr] at h
      dsimp only at h
      subst h
      dsimp only
      refine ⟨by simp [generate_report], ?_, ?_⟩ <;>
        simp only [mainRun, parse_log, hr, generate_report] <;>
        by_cases hz : st.failed_tasks = 0 <;> simp [hz]
  · intro argv emsg now
    exact ⟨rfl, rfl⟩

/-- Witness for C2 at a one-line log with a single failed task. -/
theorem C2_success_signal_and_exit_witness :
    (mainRun ["analyzer", "x.log"]
        (.present [("\x7b\"event\": \"runner_on_failed\", \"event_data\": \x7b\x7d\x7d").data])
        "2024-01-01 00:00:00").exitCode =
      (if ((runLines
            [("\x7b\"event\": \"runner_on_failed\", \"event_data\": \x7b\x7d\x7d").data]
            initStats).1).failed_tasks = 0 then 0 else 1) ∧
    (mainRun ["analyzer", "x.log"] .missing "2024-01-01 00:00:00").exitCode = 1 :=
  ⟨(C2_success_signal_and_exit.1 _ ["analyzer", "x.log"]
      "2024-01-01 00:00:00" (by rfl)).2.2,
   (C2_success_signal_and_exit.2 ["analyzer", "x.log"] "e"
      "2024-01-01 00:00:00").1⟩

/-- C3 counterexample: three well-formed JSON records on which
`_process_entry` raises (a bare number, an object whose `event_data` is
a number, and an object whose `event_data.remote_addr` is an unhashable
array), refuting that aggregation is total over all well-formed
records. -/
theorem C3_counterexample :
    ((processEntry (JsonValue.num 5) initStats).2).isSome = true ∧
    ((processEntry (JsonValue.obj [("event_data", JsonValue.num 1)])
        initStats).2).isSome = true ∧
    ((processEntry (JsonValue.obj [("event_data", JsonValue.obj
        [("remote_addr", JsonValue.arr [])])]) initStats).2).isSome = true :=
  ⟨rfl, rfl, rfl⟩

/-- C3 (amended): aggregation is total over every record that is a JSON
object whose `event_data` member, when present, is itself an object
whose `remote_addr` value, when present, is hashable — but not over all
well-formed records: some records outside that class raise (shown here
for a bare JSON number, whose exception also aborts the parse loop;
records outside the class need not raise, e.g. a skipped event with a
string `event_data` is processed fine).  The only lines removed before
aggregation remain those failing JSON decoding (a decoded line always
reaches `_process_entry`, an undecodable one is dropped with no other
effect). -/
theorem C3_amended_totality :
    (∀ (v : JsonValue) (s : Stats), goodEntry v = true →
      (processEntry v s).2 = none) ∧
    (((processEntry (JsonValue.num 5) initStats).2).isSome = true ∧
      ((runLines [("5").data] initStats).2).isSome = true) ∧
    (∀ (l : List Char) (ls : List (List Char)) (st : Stats),
      parseLine l = none → runLines (l :: ls) st = runLines ls st) := by
  refine ⟨processEntry_good_none, ⟨rfl, rfl⟩, ?_⟩
  intro l ls st hl
  simp only [runLines, hl]

/-- Witness for the amended C3 at a concrete good record and a concrete
garbage line. -/
theorem C3_amended_totality_witness :
    (processEntry (JsonValue.obj
        [("event", JsonValue.str "runner_on_ok"),
         ("event_data", JsonValue.obj
           [("remote_addr", JsonValue.str "10.0.0.9")])]) initStats).2 =
      none ∧
    runLines [("still not json").data] initStats =
      runLines [] initStats :=
  ⟨C3_amended_totality.1 _ initStats (by rfl),
   C3_amended_totality.2.2 (("still not json").data) [] initStats (by rfl)⟩

/-- C4: A line that fails JSON decoding can be inserted at any position
without changing the state reached by the parse loop or the whole run's
outcome (exit status and printed output, hence also the report); such a
line never aborts the run and is never reported as an error. -/
theorem C4_garbage_lines_inert :
    ∀ l : List Char, parseLine l = none →
      (∀ (xs ys : List (List Char)) (s : Stats),
        runLines (xs ++ l :: ys) s = runLines (xs ++ ys) s) ∧
      (∀ (xs ys : List (List Char)) (argv : List String) (now : String),
        mainRun argv (.present (xs ++ l :: ys)) now =
          mainRun argv (.present (xs ++ ys)) now) := by
  intro l hl
  refine ⟨runLines_skip l hl, ?_⟩
  intro xs ys argv now
  simp only [mainRun, parse_log, runLines_skip l hl]

/-- Witness for C4: inserting the garbage line between two decodable
lines changes nothing. -/
theorem C4_garbage_lines_inert_witness :
    mainRun ["analyzer", "y.log"]
        (.present
          ([("\x7b\"event\": \"runner_on_ok\", \"event_data\": \x7b\x7d\x7d").data] ++
            ("@@garbage@@").data ::
              [("\x7b\"event\": \"runner_on_skipped\", \"event_data\": \x7b\x7d\x7d").data]))
        "now" =
      mainRun ["analyzer", "y.log"]
        (.present
          ([("\x7b\"event\": \"runner_on_ok\", \"event_data\": \x7b\x7d\x7d").data] ++
            [("\x7b\"event\": \"runner_on_skipped\", \"event_data\": \x7b\x7d\x7d").data]))
        "now" :=
  (C4_garbage_lines_inert (("@@garbage@@").data) (by rfl)).2 _ _
    ["analyzer", "y.log"] "now"

/-- C5: When aggregation of a record sequence completes,
`failed_tasks = length failed_details`; and each counted
`runner_on_failed` record appends exactly one entry to `failed_details`
(at the end, preserving encounter order) with the source's defaults
`"Unknown"`, `"Unknown"` and `"No error message"` substituted for
missing `task`, `remote_addr` and `msg` (see `failDetailOf`). -/
theorem C5_failed_equals_details_length :
    (∀ vs : List JsonValue, (runEntries vs initStats).2 = none →
      ((runEntries vs initStats).1).failed_tasks =
        ((runEntries vs initStats).1).failed_details.length) ∧
    (∀ (v : JsonValue) (s : Stats), countsFailed v = true →
      (processEntry v s).2 = none →
      ((processEntry v s).1).failed_details =
        s.failed_details ++ [failDetailOf v]) := by
  constructor
  · intro vs h
    obtain ⟨_, _, hf, hd, _⟩ := runEntries_none vs initStats h
    rw [hf, hd]
    simp [initStats, countFailed]
  · intro v s hcf hnone
    obtain ⟨_, _, _, _, _, m6, _⟩ := processEntry_none v s hnone
    rw [m6]
    simp [hcf]

/-- Witness for C5 at a concrete failed record with all sub-fields
missing, checking the defaults. -/
theorem C5_failed_equals_details_length_witness :
    ((runEntries [JsonValue.obj
        [("event", JsonValue.str "runner_on_failed"),
         ("event_data", JsonValue.obj [])]] initStats).1).failed_tasks =
      ((runEntries [JsonValue.obj
        [("event", JsonValue.str "runner_on_failed"),
         ("event_data", JsonValue.obj [])]] initStats).1).failed_details.length ∧
    ((processEntry (JsonValue.obj
        [("event", JsonValue.str "runner_on_failed"),
         ("event_data", JsonValue.obj [])]) initStats).1).failed_details =
      initStats.failed_details ++
        [failDetailOf (JsonValue.obj
          [("event", JsonValue.str "runner_on_failed"),
           ("event_data", JsonValue.obj [])])] :=
  ⟨C5_failed_equals_details_length.1 _ (by rfl),
   C5_failed_equals_details_length.2 _ initStats (by rfl) (by rfl)⟩

/-- C6: For a path naming no existing file the run prints exactly one
diagnostic line, exits with non-zero status, and emits no report (the
output is the single diagnostic, so `generate_report` was never
reached). -/
theorem C6_missing_file_diagnostic :
    ∀ (argv : List String) (now : String),
      mainRun argv .missing now =
        { exitCode := 1,
          output := ["Error: Log file " ++ chooseLogFile argv ++ " not found"] } ∧
      (mainRun argv .missing now).exitCode ≠ 0 ∧
      (mainRun argv .missing now).output.length = 1 := by
  intro argv now
  refine ⟨rfl, ?_, rfl⟩
  intro hc
  simp [mainRun, parse_log] at hc

/-- C7: The report ends with the success-rate line, showing
`ok_tasks / total_tasks * 100` — evaluated in IEEE-754 binary64
arithmetic exactly as Python does, see `formatRate` — rendered to one
decimal place, exactly when `total_tasks > 0`; when `total_tasks = 0`
the line is omitted while the rest of the report (`reportBase`) is
still produced. -/
theorem C7_success_rate_rendering :
    ∀ (path now : String) (st : Stats),
      (0 < st.total_tasks →
        (generate_report path now st).1 =
          reportBase path now st ++
            ["Success rate: " ++ formatRate st.ok_tasks st.total_tasks ++ "%"]) ∧
      (st.total_tasks = 0 →
        (generate_report path now st).1 = reportBase path now st) := by
  intro path now st
  constructor
  · intro h
    simp [generate_report, h]
  · intro h
    simp [generate_report, h]

/-- Witness for C7 at a state with two tasks (rate line present) and at
the empty state (rate line omitted). -/
theorem C7_success_rate_rendering_witness :
    (generate_report "p.log" "now"
        { total_tasks := 2, changed_tasks := 1, failed_tasks := 1,
          skipped_tasks := 0, ok_tasks := 1, execution_time := 0,
          hosts := [], failed_details := [] }).1 =
      reportBase "p.log" "now"
        { total_tasks := 2, changed_tasks := 1, failed_tasks := 1,
          skipped_tasks := 0, ok_tasks := 1, execution_time := 0,
          hosts := [], failed_details := [] } ++
        ["Success rate: " ++ formatRate 1 2 ++ "%"] ∧
    (generate_report "p.log" "now" initStats).1 =
      reportBase "p.log" "now" initStats :=
  ⟨(C7_success_rate_rendering "p.log" "now" _).1 (by decide),
   (C7_success_rate_rendering "p.log" "now" initStats).2 rfl⟩

/-- C8: When aggregation completes, the `hosts` set is exactly the
deduplicated sequence of `remote_addr` values found in the records'
`event_data` (in encounter order, first occurrence kept, Python
equality), independent of each record's `event` value — `remoteAddrOf`
never inspects `event`; hence its size is the number of distinct
`remote_addr` values. -/
theorem C8_hosts_are_distinct_addrs :
    ∀ vs : List JsonValue, (runEntries vs initStats).2 = none →
      ((runEntries vs initStats).1).hosts =
        pyDedup (vs.filterMap remoteAddrOf) ∧
      ((runEntries vs initStats).1).hosts.length =
        (pyDedup (vs.filterMap remoteAddrOf)).length := by
  intro vs h
  obtain ⟨_, _, _, _, hh⟩ := runEntries_none vs initStats h
  have he : ((runEntries vs initStats).1).hosts =
      pyDedup (vs.filterMap remoteAddrOf) := by
    rw [hh]; rfl
  exact ⟨he, by rw [he]⟩

/-- Witness for C8 at two records sharing one address plus an
unrecognized event carrying a second address. -/
theorem C8_hosts_are_distinct_addrs_witness :
    ((runEntries
        [JsonValue.obj [("event", JsonValue.str "runner_on_ok"),
           ("event_data", JsonValue.obj [("remote_addr", JsonValue.str "h1")])],
         JsonValue.obj [("event", JsonValue.str "runner_on_skipped"),
           ("event_data", JsonValue.obj [("remote_addr", JsonValue.str "h1")])],
         JsonValue.obj [("event", JsonValue.str "playbook_on_start"),
           ("event_data", JsonValue.obj [("remote_addr", JsonValue.str "h2")])]]
        initStats).1).hosts =
      pyDedup ([JsonValue.obj [("event", JsonValue.str "runner_on_ok"),
           ("event_data", JsonValue.obj [("remote_addr", JsonValue.str "h1")])],
         JsonValue.obj [("event", JsonValue.str "runner_on_skipped"),
           ("event_data", JsonValue.obj [("remote_addr", JsonValue.str "h1")])],
         JsonValue.obj [("event", JsonValue.str "playbook_on_start"),
           ("event_data", JsonValue.obj [("remote_addr", JsonValue.str "h2")])]].filterMap
        remoteAddrOf) :=
  (C8_hosts_are_distinct_addrs _ (by rfl)).1

/-- C9 (implicit): after any record sequence from the empty state,
`changed_tasks ≤ ok_tasks ≤ total_tasks`; and since `changed_tasks` is
only incremented inside the `runner_on_ok` branch, a `runner_on_failed`
or `runner_on_skipped` record never changes it (truthy
`event_data.changed` or not). -/
theorem C9_changed_le_ok_le_total :
    (∀ vs : List JsonValue,
      ((runEntries vs initStats).1).changed_tasks ≤
          ((runEntries vs initStats).1).ok_tasks ∧
        ((runEntries vs initStats).1).ok_tasks ≤
          ((runEntries vs initStats).1).total_tasks) ∧
    (∀ (v : JsonValue) (s : Stats),
      (countsFailed v || countsSkipped v) = true →
      ((processEntry v s).1).changed_tasks = s.changed_tasks) := by
  constructor
  · intro vs
    obtain ⟨_, h2, h3⟩ := runEntries_counters_inv vs initStats rfl
      (Nat.le_refl 0) (Nat.le_refl 0)
    exact ⟨h2, h3⟩
  · intro v s h
    have h' : countsFailed v = true ∨ countsSkipped v = true := by
      simpa using h
    rcases h' with hf | hs
    · exact processEntry_changed_unchanged v s (countsFailed_not_ok v hf)
    · exact processEntry_changed_unchanged v s (countsSkipped_not_ok v hs)

/-- Witness for C9 at a failed record whose `event_data.changed` is
truthy: `changed_tasks` stays untouched. -/
theorem C9_changed_le_ok_le_total_witness :
    ((processEntry (JsonValue.obj
        [("event", JsonValue.str "runner_on_failed"),
         ("event_data", JsonValue.obj [("changed", JsonValue.bool true)])])
        initStats).1).changed_tasks = initStats.changed_tasks :=
  C9_changed_le_ok_le_total.2 _ initStats (by rfl)

/-- C10 (implicit): each line is stripped of surrounding whitespace
before decoding, so a line that is a stripped JSON text surrounded by
whitespace decodes exactly as the bare text does (and is then processed
normally); and an empty or whitespace-only line is silently skipped,
leaving the parse loop's result — state, error and hence exit status —
unchanged. -/
theorem C10_whitespace_stripping :
    (∀ (ws1 ws2 s : List Char),
      (∀ c ∈ ws1, isPySpace c = true) → (∀ c ∈ ws2, isPySpace c = true) →
      pyStrip s = s →
      parseLine (ws1 ++ s ++ ws2) = jsonLoads s) ∧
    (∀ ws : List Char, (∀ c ∈ ws, isPySpace c = true) →
      ∀ (xs ys : List (List Char)) (st : Stats),
        runLines (xs ++ ws :: ys) st = runLines (xs ++ ys) st) := by
  constructor
  · intro ws1 ws2 s h1 h2 hs
    unfold parseLine
    rw [pyStrip_surround ws1 ws2 s h1 h2, hs]
  · intro ws hw xs ys st
    refine runLines_skip ws ?_ xs ys st
    unfold parseLine
    rw [pyStrip_all_space ws hw]
    rfl

/-- Witness for C10: a tab-and-space surrounded object line decodes like
the bare object, and a whitespace-only line between two others is
skipped. -/
theorem C10_whitespace_stripping_witness :
    parseLine (("\t ").data ++
        ("\x7b\"event\": \"runner_on_ok\", \"event_data\": \x7b\x7d\x7d").data ++
        (" ").data) =
      jsonLoads ("\x7b\"event\": \"runner_on_ok\", \"event_data\": \x7b\x7d\x7d").data ∧
    runLines ([("null").data] ++ ("  ").data :: [("true").data]) initStats =
      runLines ([("null").data] ++ [("true").data]) initStats :=
  ⟨C10_whitespace_stripping.1 _ _ _ (by decide) (by decide) (by rfl),
   C10_whitespace_stripping.2 (("  ").data) (by decide) _ _ initStats⟩

end LogAnalyzer
